import Mathlib

/-!
Verification of `internal/testvalues/passlib_drupal7.py` from zitadel/passwap:
a generator of Drupal-7 password-hash test values.  The Python functions
`get_iteration_count`, `encode_crypt3`, `hash_password_drupal7` and
`generate_drupal7_hash` are embedded shallowly below; strings are `List Char`,
byte sequences are `List Nat` (each element a byte value), Python integers are
`Int` where negativity matters and `Nat` elsewhere.  `hashlib.sha512` is
embedded as a full executable SHA-512 over byte lists, and `str.encode`
as a UTF-8 encoder over code points.
-/

namespace Drupal7

/-- the 64-symbol crypt3 alphabet, `"./0-9A-Za-z"`, shared by
`get_iteration_count` and `encode_crypt3` in the source. -/
def alphabet : List Char :=
  "./0123456789ABCDEFGHIJKLMNOPQRSTUVWXYZabcdefghijklmnopqrstuvwxyz".toList

/-- embedding of `get_iteration_count`: Python `alphabet.find(char)` is the
first index of `char` (or `-1` when absent, in which case the function
returns `-1`); otherwise the result is `1 << index`. -/
def get_iteration_count (c : Char) : Int :=
  match alphabet.findIdx? (fun x => x = c) with
  | none => -1
  | some index => Int.ofNat (1 <<< index)

/-- symbol lookup `alphabet[v & 63]` from `encode_crypt3`; the default of
`getD` is never reached since `v % 64 < 64 = alphabet.length`. -/
def sym (v : Nat) : Char := alphabet.getD (v % 64) '.'

/-- the inner `while bits > 6` loop of `encode_crypt3`: emit the symbol of
the low 6 bits of the accumulator, shift right by 6, drop 6 from the bit
count, until at most 6 bits remain. -/
def crypt3Emit (v bits : Nat) (dest : List Char) : Nat × Nat × List Char :=
  if 6 < bits then
    crypt3Emit (v >>> 6) (bits - 6) (dest ++ [sym v])
  else
    (v, bits, dest)
termination_by bits

/-- the outer `for b in raw_bytes` loop of `encode_crypt3`, followed by the
trailing `if bits > 0` emission. -/
def crypt3Loop : List Nat → Nat → Nat → List Char → List Char
  | [], v, bits, dest => if 0 < bits then dest ++ [sym v] else dest
  | b :: bs, v, bits, dest =>
    let s := crypt3Emit (v ||| (b <<< bits)) (bits + 8) dest
    crypt3Loop bs s.1 s.2.1 s.2.2

/-- embedding of `encode_crypt3`: little-endian bit accumulation over the
input bytes, 6 bits per output symbol. -/
def encode_crypt3 (raw_bytes : List Nat) : List Char :=
  crypt3Loop raw_bytes 0 0 []

/-- UTF-8 encoding of one code point (embedding of Python
`str.encode` restricted to a single character). -/
def utf8EncodeChar (c : Char) : List Nat :=
  let n := c.toNat
  if n < 0x80 then [n]
  else if n < 0x800 then
    [0xC0 ||| (n >>> 6), 0x80 ||| (n &&& 0x3F)]
  else if n < 0x10000 then
    [0xE0 ||| (n >>> 12), 0x80 ||| ((n >>> 6) &&& 0x3F), 0x80 ||| (n &&& 0x3F)]
  else
    [0xF0 ||| (n >>> 18), 0x80 ||| ((n >>> 12) &&& 0x3F),
     0x80 ||| ((n >>> 6) &&& 0x3F), 0x80 ||| (n &&& 0x3F)]

/-- UTF-8 encoding of a string (embedding of Python `str.encode("utf-8")`). -/
def utf8Encode (s : List Char) : List Nat := s.flatMap utf8EncodeChar

/-! SHA-512 (embedding of `hashlib.sha512`, FIPS 180-4), over byte lists with
64-bit words as `Nat` reduced modulo `2 ^ 64`. -/

/-- addition modulo `2 ^ 64`. -/
def add64 (a b : Nat) : Nat := (a + b) % (2 ^ 64)

/-- right rotation of a 64-bit word. -/
def rotr64 (n x : Nat) : Nat := ((x >>> n) ||| (x <<< (64 - n))) % (2 ^ 64)

/-- bitwise complement of a 64-bit word. -/
def not64 (x : Nat) : Nat := x ^^^ (2 ^ 64 - 1)

/-- choice function `Ch(x, y, z)`. -/
def ch64 (x y z : Nat) : Nat := (x &&& y) ^^^ (not64 x &&& z)

/-- majority function `Maj(x, y, z)`. -/
def maj64 (x y z : Nat) : Nat := (x &&& y) ^^^ (x &&& z) ^^^ (y &&& z)

/-- big sigma-0: `ROTR 28 ^ ROTR 34 ^ ROTR 39`. -/
def bsig0 (x : Nat) : Nat := rotr64 28 x ^^^ rotr64 34 x ^^^ rotr64 39 x

/-- big sigma-1: `ROTR 14 ^ ROTR 18 ^ ROTR 41`. -/
def bsig1 (x : Nat) : Nat := rotr64 14 x ^^^ rotr64 18 x ^^^ rotr64 41 x

/-- small sigma-0: `ROTR 1 ^ ROTR 8 ^ SHR 7`. -/
def ssig0 (x : Nat) : Nat := rotr64 1 x ^^^ rotr64 8 x ^^^ (x >>> 7)

/-- small sigma-1: `ROTR 19 ^ ROTR 61 ^ SHR 6`. -/
def ssig1 (x : Nat) : Nat := rotr64 19 x ^^^ rotr64 61 x ^^^ (x >>> 6)

/-- the 80 SHA-512 round constants (FIPS 180-4, written in decimal). -/
def sha512K : List Nat :=
  [4794697086780616226, 8158064640168781261, 13096744586834688815,
   16840607885511220156, 4131703408338449720, 6480981068601479193,
   10538285296894168987, 12329834152419229976, 15566598209576043074,
   1334009975649890238, 2608012711638119052, 6128411473006802146,
   8268148722764581231, 9286055187155687089, 11230858885718282805,
   13951009754708518548, 16472876342353939154, 17275323862435702243,
   1135362057144423861, 2597628984639134821, 3308224258029322869,
   5365058923640841347, 6679025012923562964, 8573033837759648693,
   10970295158949994411, 12119686244451234320, 12683024718118986047,
   13788192230050041572, 14330467153632333762, 15395433587784984357,
   489312712824947311, 1452737877330783856, 2861767655752347644,
   3322285676063803686, 5560940570517711597, 5996557281743188959,
   7280758554555802590, 8532644243296465576, 9350256976987008742,
   10552545826968843579, 11727347734174303076, 12113106623233404929,
   14000437183269869457, 14369950271660146224, 15101387698204529176,
   15463397548674623760, 17586052441742319658, 1182934255886127544,
   1847814050463011016, 2177327727835720531, 2830643537854262169,
   3796741975233480872, 4115178125766777443, 5681478168544905931,
   6601373596472566643, 7507060721942968483, 8399075790359081724,
   8693463985226723168, 9568029438360202098, 10144078919501101548,
   10430055236837252648, 11840083180663258601, 13761210420658862357,
   14299343276471374635, 14566680578165727644, 15097957966210449927,
   16922976911328602910, 17689382322260857208, 500013540394364858,
   748580250866718886, 1242879168328830382, 1977374033974150939,
   2944078676154940804, 3659926193048069267, 4368137639120453308,
   4836135668995329356, 5532061633213252278, 6448918945643986474,
   6902733635092675308, 7801388544844847127]

/-- hash state: eight 64-bit words. -/
structure Sha512State where
  a : Nat
  b : Nat
  c : Nat
  d : Nat
  e : Nat
  f : Nat
  g : Nat
  h : Nat

/-- the SHA-512 initial hash value (FIPS 180-4, written in decimal). -/
def sha512Init : Sha512State :=
  ⟨7640891576956012808, 13503953896175478587, 4354685564936845355,
   11912009170470909681, 5840696475078001361, 11170449401992604703,
   2270897969802886507, 6620516959819538809⟩

/-- a big-endian word from a byte list. -/
def bytesToWord (bs : List Nat) : Nat := bs.foldl (fun acc b => acc * 256 + b) 0

/-- the eight big-endian bytes of a 64-bit word. -/
def wordToBytes (x : Nat) : List Nat :=
  [(x >>> 56) &&& 255, (x >>> 48) &&& 255, (x >>> 40) &&& 255, (x >>> 32) &&& 255,
   (x >>> 24) &&& 255, (x >>> 16) &&& 255, (x >>> 8) &&& 255, x &&& 255]

/-- split a byte list into 128-byte blocks. -/
def chunk128 (l : List Nat) : List (List Nat) :=
  if l = [] then [] else l.take 128 :: chunk128 (l.drop 128)
termination_by l.length
decreasing_by
  simp only [List.length_drop]
  have h' : 0 < l.length := List.length_pos.mpr (by assumption)
  omega

/-- extend the 16-word block to the 80-word message schedule. -/
def extendSchedule : Nat → List Nat → List Nat
  | 0, ws => ws
  | n + 1, ws =>
    let t := ws.length
    let w := add64 (add64 (ssig1 (ws.getD (t - 2) 0)) (ws.getD (t - 7) 0))
                   (add64 (ssig0 (ws.getD (t - 15) 0)) (ws.getD (t - 16) 0))
    extendSchedule n (ws ++ [w])

/-- one SHA-512 compression round. -/
def sha512Round (st : Sha512State) (kw : Nat × Nat) : Sha512State :=
  let t1 := add64 (add64 (add64 (add64 st.h (bsig1 st.e)) (ch64 st.e st.f st.g)) kw.1) kw.2
  let t2 := add64 (bsig0 st.a) (maj64 st.a st.b st.c)
  ⟨add64 t1 t2, st.a, st.b, st.c, add64 st.d t1, st.e, st.f, st.g⟩

/-- process one 128-byte block: build the schedule, run 80 rounds, add the
result into the chaining state. -/
def sha512Block (st : Sha512State) (block : List Nat) : Sha512State :=
  let ws0 := (List.range 16).map (fun i => bytesToWord ((block.drop (8 * i)).take 8))
  let ws := extendSchedule 64 ws0
  let r := (sha512K.zip ws).foldl sha512Round st
  ⟨add64 st.a r.a, add64 st.b r.b, add64 st.c r.c, add64 st.d r.d,
   add64 st.e r.e, add64 st.f r.f, add64 st.g r.g, add64 st.h r.h⟩

/-- SHA-512 padding: a `0x80` byte, zero bytes to 112 mod 128, then the
message bit length as 16 big-endian bytes. -/
def sha512Pad (msg : List Nat) : List Nat :=
  let l := msg.length
  let k := (112 + 128 - ((l + 1) % 128)) % 128
  let lenBytes := (List.range 16).map (fun i => ((8 * l) >>> (8 * (15 - i))) &&& 255)
  msg ++ [0x80] ++ List.replicate k 0 ++ lenBytes

/-- the 64-byte serialization of a hash state. -/
def stateToBytes (st : Sha512State) : List Nat :=
  wordToBytes st.a ++ wordToBytes st.b ++ wordToBytes st.c ++ wordToBytes st.d ++
  wordToBytes st.e ++ wordToBytes st.f ++ wordToBytes st.g ++ wordToBytes st.h

/-- SHA-512 of a byte list, yielding the 64-byte digest. -/
def sha512 (msg : List Nat) : List Nat :=
  stateToBytes ((chunk128 (sha512Pad msg)).foldl sha512Block sha512Init)

/-- the `for i in range(iterations)` loop of `hash_password_drupal7`: each pass
replaces the digest by `SHA-512(digest || password_bytes)`; Python `range` of a
non-positive bound runs zero passes, which `Int.toNat` captures at the call
site. -/
def hashLoop (pw : List Nat) : Nat → List Nat → List Nat
  | 0, digest => digest
  | n + 1, digest => hashLoop pw n (sha512 (digest ++ pw))

/-- embedding of `hash_password_drupal7`: initial digest
`SHA-512((salt + password).encode("utf-8"))`, then the iteration loop, then
crypt3 encoding of the raw final digest. -/
def hash_password_drupal7 (password salt : List Char) (iterations : Int) : List Char :=
  let digest := sha512 (utf8Encode (salt ++ password))
  let digest := hashLoop (utf8Encode password) iterations.toNat digest
  encode_crypt3 digest

/-- the salt canonicalization step of `generate_drupal7_hash`: Python
`salt[:8]` when longer than 8, `salt.ljust(8, "0")` when shorter. -/
def canonicalizeSalt (salt : List Char) : List Char :=
  if 8 < salt.length then salt.take 8
  else if salt.length < 8 then salt ++ List.replicate (8 - salt.length) '0'
  else salt

/-- embedding of `generate_drupal7_hash`: look up the iteration count, raise
`ValueError` (modelled as `Except.error` with the f-string message) on `-1`,
canonicalize the salt, hash, truncate the hash portion to 43 characters, and
assemble `"$S$" + iteration_char + salt + hash_portion`. -/
def generate_drupal7_hash (password salt : List Char) (iteration_char : Char) :
    Except (List Char) (List Char) :=
  let iterations := get_iteration_count iteration_char
  if iterations = -1 then
    Except.error ("Invalid iteration character: ".toList ++ [iteration_char])
  else
    let salt := canonicalizeSalt salt
    let hash_portion := hash_password_drupal7 password salt iterations
    let hash_portion := if 43 < hash_portion.length then hash_portion.take 43 else hash_portion
    Except.ok ("$S$".toList ++ [iteration_char] ++ salt ++ hash_portion)

/-- the digest computation as the spec states it: `SHA-512(salt || password)`
followed by `n` rounds of `digest := SHA-512(digest || password)`, the rounds
written as function iteration over raw byte lists (no re-encoding between
rounds).  This definition follows the specification text; the theorem for C2
proves `hash_password_drupal7` refines it. -/
def digestSpec (password salt : List Char) (n : Nat) : List Nat :=
  (fun digest => sha512 (digest ++ utf8Encode password))^[n]
    (sha512 (utf8Encode salt ++ utf8Encode password))

/-! helper lemmas -/

theorem alphabet_length : alphabet.length = 64 := by decide

theorem sym_mem (v : Nat) : sym v ∈ alphabet := by
  have h : v % 64 < alphabet.length := by
    rw [alphabet_length]; exact Nat.mod_lt _ (by norm_num)
  rw [sym, List.getD_eq_getElem _ _ h]
  exact List.getElem_mem h

/-- invariant of the inner emission loop: each output symbol consumes 6 bits
(so `6 * emitted + bits` is conserved), the final bit count is at most 6 and
stays positive when it started positive, and every appended character is an
alphabet symbol. -/
theorem crypt3Emit_spec (bits : Nat) : ∀ v dest,
    (crypt3Emit v bits dest).2.1 ≤ 6 ∧
    6 * (crypt3Emit v bits dest).2.2.length + (crypt3Emit v bits dest).2.1 =
      6 * dest.length + bits ∧
    (0 < bits → 0 < (crypt3Emit v bits dest).2.1) ∧
    (∀ c ∈ (crypt3Emit v bits dest).2.2, c ∈ dest ∨ c ∈ alphabet) := by
  induction bits using Nat.strong_induction_on with
  | _ bits ih =>
    intro v dest
    rw [crypt3Emit]
    by_cases h : 6 < bits
    · rw [if_pos h]
      obtain ⟨h1, h2, h3, h4⟩ := ih (bits - 6) (by omega) (v >>> 6) (dest ++ [sym v])
      refine ⟨h1, by simp at h2 ⊢; omega, fun _ => h3 (by omega), fun c hc => ?_⟩
      rcases h4 c hc with hd | ha
      · rcases List.mem_append.mp hd with hd2 | hs
        · exact Or.inl hd2
        · simp at hs; subst hs; exact Or.inr (sym_mem v)
      · exact Or.inr ha
    · rw [if_neg h]
      exact ⟨Nat.le_of_not_lt h, rfl, fun hb => hb, fun c hc => Or.inl hc⟩

/-- length of the byte loop output: starting from at most 6 buffered bits,
processing `bs` and flushing yields `(bits + 8 * |bs| + 5) / 6` further
symbols. -/
theorem crypt3Loop_length (bs : List Nat) : ∀ v bits dest, bits ≤ 6 →
    (crypt3Loop bs v bits dest).length = dest.length + (bits + 8 * bs.length + 5) / 6 := by
  induction bs with
  | nil =>
    intro v bits dest hb
    by_cases h : 0 < bits
    · simp [crypt3Loop, if_pos h]; omega
    · simp [crypt3Loop, if_neg h]; omega
  | cons b bs ih =>
    intro v bits dest hb
    show (crypt3Loop bs _ _ _).length = _
    obtain ⟨h1, h2, h3, _⟩ := crypt3Emit_spec (bits + 8) (v ||| (b <<< bits)) dest
    rw [ih _ _ _ h1]
    simp only [List.length_cons]
    have hp : 0 < (crypt3Emit (v ||| (b <<< bits)) (bits + 8) dest).2.1 := h3 (by omega)
    omega

/-- every character produced by the byte loop is either carried over from
`dest` or an alphabet symbol. -/
theorem crypt3Loop_mem (bs : List Nat) : ∀ v bits dest c, c ∈ crypt3Loop bs v bits dest →
    c ∈ dest ∨ c ∈ alphabet := by
  induction bs with
  | nil =>
    intro v bits dest c hc
    by_cases h : 0 < bits
    · simp only [crypt3Loop, if_pos h] at hc
      rcases List.mem_append.mp hc with hd | hs
      · exact Or.inl hd
      · simp at hs; subst hs; exact Or.inr (sym_mem v)
    · simp only [crypt3Loop, if_neg h] at hc
      exact Or.inl hc
  | cons b bs ih =>
    intro v bits dest c hc
    obtain ⟨_, _, _, h4⟩ := crypt3Emit_spec (bits + 8) (v ||| (b <<< bits)) dest
    rcases ih _ _ _ c hc with hd | ha
    · exact h4 c hd
    · exact Or.inr ha

theorem encode_crypt3_length (raw : List Nat) :
    (encode_crypt3 raw).length = (8 * raw.length + 5) / 6 := by
  rw [encode_crypt3, crypt3Loop_length raw 0 0 [] (by omega)]
  simp

theorem encode_crypt3_mem (raw : List Nat) (c : Char) (hc : c ∈ encode_crypt3 raw) :
    c ∈ alphabet := by
  rcases crypt3Loop_mem raw 0 0 [] c hc with hd | ha
  · simp at hd
  · exact ha

theorem sha512_length (msg : List Nat) : (sha512 msg).length = 64 := by
  simp [sha512, stateToBytes, wordToBytes]

theorem hashLoop_length (pw : List Nat) :
    ∀ n digest, digest.length = 64 → (hashLoop pw n digest).length = 64 := by
  intro n
  induction n with
  | zero => intro digest h; exact h
  | succ n ih => intro digest _; exact ih _ (sha512_length _)

theorem hash_password_length (password salt : List Char) (iterations : Int) :
    (hash_password_drupal7 password salt iterations).length = 86 := by
  rw [hash_password_drupal7, encode_crypt3_length,
    hashLoop_length _ _ _ (sha512_length _)]

theorem canonicalizeSalt_length (salt : List Char) :
    (canonicalizeSalt salt).length = 8 := by
  rw [canonicalizeSalt]
  split
  · simp; omega
  · split
    · simp; omega
    · omega

theorem utf8Encode_append (s t : List Char) :
    utf8Encode (s ++ t) = utf8Encode s ++ utf8Encode t := by
  simp [utf8Encode]

theorem hashLoop_eq_iterate (pw : List Nat) :
    ∀ n digest, hashLoop pw n digest = (fun d => sha512 (d ++ pw))^[n] digest := by
  intro n
  induction n with
  | zero => intro digest; rfl
  | succ n ih =>
    intro digest
    rw [hashLoop, ih, Function.iterate_succ_apply]

/-- the success branch of `generate_drupal7_hash`, in closed form: when the
iteration symbol is valid, the result is the `$S$` tag, the symbol, the
canonical salt and the first 43 characters of the hash portion. -/
theorem generate_format (password salt : List Char) (c : Char)
    (h : get_iteration_count c ≠ -1) :
    generate_drupal7_hash password salt c =
      Except.ok ("$S$".toList ++ [c] ++ canonicalizeSalt salt ++
        (hash_password_drupal7 password (canonicalizeSalt salt)
          (get_iteration_count c)).take 43) := by
  simp [generate_drupal7_hash, if_neg h, hash_password_length]

/-- every successful result of `generate_drupal7_hash` has length
`3 + 1 + 8 + 43 = 55`. -/
theorem generate_ok_length (password salt : List Char) (c : Char) (out : List Char)
    (h : generate_drupal7_hash password salt c = Except.ok out) : out.length = 55 := by
  by_cases hv : get_iteration_count c = -1
  · rw [generate_drupal7_hash, if_pos hv] at h
    exact absurd h (by simp)
  · rw [generate_format _ _ _ hv] at h
    cases h
    simp [canonicalizeSalt_length, hash_password_length]

/-! the claims -/

/-- Claim C1: for password `"password"`, salt `"randomsa"` and iteration
character `E` (iteration count 65536), `generate_drupal7_hash` succeeds with a
55-character string that begins with `$S$E` followed by `randomsa`, and the
function is deterministic: with identical inputs it always returns the
identical result. -/
theorem drupal7_c1_concrete_vector :
    (∃ out, generate_drupal7_hash "password".toList "randomsa".toList 'E' = Except.ok out ∧
      out.length = 55 ∧ out.take 12 = "$S$Erandomsa".toList) ∧
    get_iteration_count 'E' = 65536 ∧
    ∀ password salt c,
      generate_drupal7_hash password salt c = generate_drupal7_hash password salt c := by
  have hval : get_iteration_count 'E' ≠ -1 := by decide
  have hsalt : canonicalizeSalt "randomsa".toList = "randomsa".toList := by decide
  refine ⟨⟨_, generate_format _ _ _ hval,
    generate_ok_length _ _ _ _ (generate_format _ _ _ hval), ?_⟩,
    by decide, fun _ _ _ => rfl⟩
  have h12 : ("$S$".toList ++ ['E'] ++ "randomsa".toList).length = 12 := by decide
  rw [hsalt, List.take_left' h12]
  decide

/-- Claim C2: for every password, salt and iteration count `n : Nat`,
`hash_password_drupal7` encodes the digest obtained as SHA-512 of the UTF-8
salt bytes followed by the UTF-8 password bytes, then exactly `n` rounds of
`digest := SHA-512(raw digest || password bytes)` with no re-encoding of the
digest between rounds (`digestSpec` states this with function iteration over
raw byte lists). -/
theorem drupal7_c2_digest_chain (password salt : List Char) (n : Nat) :
    hash_password_drupal7 password salt (n : Int) =
      encode_crypt3 (digestSpec password salt n) := by
  simp [hash_password_drupal7, digestSpec, utf8Encode_append, hashLoop_eq_iterate]

/-- Claim C3: for every password, salt and valid iteration character, the
result of `generate_drupal7_hash` is exactly `$S$`, the iteration character,
the 8-character canonical salt, and the first 43 characters of the
crypt3-encoded digest (the truncation slices the encoded text), for a total
length of 55. -/
theorem drupal7_c3_format (password salt : List Char) (c : Char)
    (h : get_iteration_count c ≠ -1) :
    generate_drupal7_hash password salt c =
      Except.ok ("$S$".toList ++ [c] ++ canonicalizeSalt salt ++
        (encode_crypt3 (hashLoop (utf8Encode password) (get_iteration_count c).toNat
          (sha512 (utf8Encode (canonicalizeSalt salt ++ password))))).take 43) ∧
    (canonicalizeSalt salt).length = 8 ∧
    ∀ out, generate_drupal7_hash password salt c = Except.ok out → out.length = 55 := by
  refine ⟨?_, canonicalizeSalt_length salt, fun out hout => generate_ok_length _ _ _ _ hout⟩
  rw [generate_format _ _ _ h]
  rfl

/-- witness for C3 at the concrete inputs of the repository's test vector. -/
theorem drupal7_c3_format_witness :
    get_iteration_count 'E' ≠ -1 ∧
    (generate_drupal7_hash "password".toList "randomsa".toList 'E' =
      Except.ok ("$S$".toList ++ ['E'] ++ canonicalizeSalt "randomsa".toList ++
        (encode_crypt3 (hashLoop (utf8Encode "password".toList)
          (get_iteration_count 'E').toNat
          (sha512 (utf8Encode (canonicalizeSalt "randomsa".toList ++
            "password".toList))))).take 43) ∧
    (canonicalizeSalt "randomsa".toList).length = 8 ∧
    ∀ out, generate_drupal7_hash "password".toList "randomsa".toList 'E' = Except.ok out →
      out.length = 55) :=
  ⟨by decide, drupal7_c3_format "password".toList "randomsa".toList 'E' (by decide)⟩

/-- Claim C4: for every byte sequence, `encode_crypt3` produces exactly
`ceil(8 * n / 6)` characters (written `(8 * n + 5) / 6` in natural division),
each of them a symbol of the 64-character alphabet. -/
theorem drupal7_c4_encoding_length (raw : List Nat) :
    (encode_crypt3 raw).length = (8 * raw.length + 5) / 6 ∧
    ∀ c ∈ encode_crypt3 raw, c ∈ alphabet :=
  ⟨encode_crypt3_length raw, fun c hc => encode_crypt3_mem raw c hc⟩

/-- witness for C4 at the one-byte input `[1]`, whose encoding is `/.`. -/
theorem drupal7_c4_encoding_length_witness :
    (encode_crypt3 [1]).length = (8 * [1].length + 5) / 6 ∧ '/' ∈ alphabet :=
  ⟨(drupal7_c4_encoding_length [1]).1,
   (drupal7_c4_encoding_length [1]).2 '/'
     (by simp [encode_crypt3, crypt3Loop, crypt3Emit, sym, alphabet])⟩

/-- Claim C5, counterexample: the claim says a short salt is right-padded
with the alphabet's first symbol `.`; the code pads with the character `0`
instead, so at salt `"abc"` the claimed canonicalization `"abc....."` does
not hold. -/
theorem drupal7_c5_counterexample :
    ¬ canonicalizeSalt "abc".toList = "abc".toList ++ List.replicate 5 '.' := by
  decide

/-- Claim C5, amended: a salt shorter than 8 characters is right-padded to
length 8 with the character `0` (alphabet index 2, not the zero-value
symbol `.`), and a salt longer than 8 characters is truncated to its first
8 characters. -/
theorem drupal7_c5_amended (salt : List Char) :
    (salt.length < 8 → canonicalizeSalt salt = salt ++ List.replicate (8 - salt.length) '0') ∧
    (8 < salt.length → canonicalizeSalt salt = salt.take 8) := by
  constructor
  · intro h
    rw [canonicalizeSalt, if_neg (by omega), if_pos h]
  · intro h
    rw [canonicalizeSalt, if_pos h]

/-- witness for the amended C5 at a 3-character and a 12-character salt. -/
theorem drupal7_c5_amended_witness :
    canonicalizeSalt "abc".toList =
      "abc".toList ++ List.replicate (8 - "abc".toList.length) '0' ∧
    canonicalizeSalt "0123456789ab".toList = "0123456789ab".toList.take 8 :=
  ⟨(drupal7_c5_amended "abc".toList).1 (by decide),
   (drupal7_c5_amended "0123456789ab".toList).2 (by decide)⟩

/-- Claim C6: the 3-character salt `"xxx"` is canonicalized to `"xxx00000"`
(padded with the character `0`), and every 12-character salt is truncated to
its first 8 characters. -/
theorem drupal7_c6_salt_examples :
    canonicalizeSalt "xxx".toList = "xxx00000".toList ∧
    ∀ salt : List Char, salt.length = 12 → canonicalizeSalt salt = salt.take 8 := by
  refine ⟨by decide, fun salt h => ?_⟩
  rw [canonicalizeSalt, if_pos (by omega)]

/-- witness for C6 at a concrete 12-character salt. -/
theorem drupal7_c6_salt_examples_witness :
    canonicalizeSalt "xxx".toList = "xxx00000".toList ∧
    canonicalizeSalt "0123456789AB".toList = "0123456789AB".toList.take 8 :=
  ⟨drupal7_c6_salt_examples.1, drupal7_c6_salt_examples.2 _ (by decide)⟩

/-- Claim C7: for every symbol of the 64-character alphabet,
`get_iteration_count` returns 2 raised to the symbol's index; the alphabet
has no duplicate symbols, so distinct symbols yield distinct powers of two
between `2 ^ 0` and `2 ^ 63`; in particular the count for `E` is 65536. -/
theorem drupal7_c7_iteration_counts :
    (∀ i : Fin 64, get_iteration_count (alphabet.getD i '.') = Int.ofNat (2 ^ (i : Nat))) ∧
    alphabet.Nodup ∧ get_iteration_count 'E' = 65536 := by
  decide

/-- Claim C8: for every iteration character absent from the alphabet,
`generate_drupal7_hash` fails with the `ValueError` message (no hash string
and no silently substituted default: `get_iteration_count` returns the `-1`
sentinel, which triggers the error branch). -/
theorem drupal7_c8_invalid_symbol (password salt : List Char) (c : Char)
    (h : c ∉ alphabet) :
    generate_drupal7_hash password salt c =
      Except.error ("Invalid iteration character: ".toList ++ [c]) ∧
    get_iteration_count c = -1 := by
  have hfind : alphabet.findIdx? (fun x => x = c) = none := by
    rw [List.findIdx?_eq_none_iff]
    intro x hx
    simp only [decide_eq_false_iff_not]
    intro he
    exact h (he ▸ hx)
  have hcount : get_iteration_count c = -1 := by
    rw [get_iteration_count, hfind]
  exact ⟨by simp [generate_drupal7_hash, hcount], hcount⟩

/-- witness for C8 at the character `$`, which is not in the alphabet. -/
theorem drupal7_c8_invalid_symbol_witness :
    '$' ∉ alphabet ∧
    (generate_drupal7_hash "password".toList "randomsa".toList '$' =
      Except.error ("Invalid iteration character: ".toList ++ ['$']) ∧
    get_iteration_count '$' = -1) :=
  ⟨by decide, drupal7_c8_invalid_symbol "password".toList "randomsa".toList '$' (by decide)⟩

/-- Claim C9: with an iteration count of zero, `hash_password_drupal7`
performs no rounds and returns exactly the crypt3 encoding of
`SHA-512(salt bytes || password bytes)`. -/
theorem drupal7_c9_zero_iterations (password salt : List Char) :
    hash_password_drupal7 password salt 0 =
      encode_crypt3 (sha512 (utf8Encode salt ++ utf8Encode password)) := by
  rw [hash_password_drupal7, utf8Encode_append]
  rfl

/-- Claim C10: `hash_password_drupal7` does not validate its iteration count:
a negative count (such as the `-1` sentinel of `get_iteration_count`) raises
no error — the function is total here — and the loop body never runs, so the
result equals the zero-iteration result. -/
theorem drupal7_c10_negative_iterations (password salt : List Char) (n : Int)
    (h : n < 0) :
    hash_password_drupal7 password salt n = hash_password_drupal7 password salt 0 := by
  rw [hash_password_drupal7, hash_password_drupal7, Int.toNat_of_nonpos (le_of_lt h)]
  rfl

/-- witness for C10 at the sentinel iteration count `-1`. -/
theorem drupal7_c10_negative_iterations_witness :
    (-1 : Int) < 0 ∧
    hash_password_drupal7 "password".toList "randomsa".toList (-1) =
      hash_password_drupal7 "password".toList "randomsa".toList 0 :=
  ⟨by decide,
   drupal7_c10_negative_iterations "password".toList "randomsa".toList (-1) (by decide)⟩

end Drupal7
